import Mathlib

/-!
Verification of the smoothed categorical-likelihood encoder, the manager-skill
transformer and the submission writer of src/code/sklearn-pipeline.py.

The data-frame computations are embedded shallowly: a training frame is a list
of rows, a groupby is a count over that list, and the fitted state of each
transformer is an explicit structure.  Pandas floats are modelled by real
numbers; the random jitter drawn by np.random.uniform is an explicit parameter
of fit (one value per grouped row and statistic), constrained to [0, 1) where a
claim needs it.
-/

namespace SklearnPipeline

/-- The three values of the interest_level column. -/
inductive InterestLevel
  | high
  | medium
  | low
deriving DecidableEq

/-- One training row seen by CategoricalTransformer.fit: the value of the
categorical column named by self.column_name, and the interest_level label. -/
structure TrainRow (α : Type) where
  cat : α
  interest_level : InterestLevel
deriving DecidableEq

variable {α : Type} [DecidableEq α]

/-- One cell of the table built on lines 69-71, after unstack and fillna(0):
the number of rows with the given category value and the given label. -/
def classCount (rows : List (TrainRow α)) (c : α) (l : InterestLevel) : ℕ :=
  rows.countP (fun r => decide (r.cat = c ∧ r.interest_level = l))

/-- Line 73: record_count = high + medium + low. -/
def recordCount (rows : List (TrainRow α)) (c : α) : ℕ :=
  classCount rows c InterestLevel.high + classCount rows c InterestLevel.medium +
    classCount rows c InterestLevel.low

/-- The category values appearing in the training frame: the keys of the
groupby on lines 69-70, one grouped row per distinct value. -/
def seenCats (rows : List (TrainRow α)) : List α :=
  (rows.map TrainRow.cat).dedup

/-- One training row seen by ManagerSkill.fit: the manager_id and the encoded
label y, with 0 = high, 1 = medium, 2 = low (target_num_map, line 387);
we reuse InterestLevel for the three codes. -/
structure MSRow (α : Type) where
  manager_id : α
  label : InterestLevel
deriving DecidableEq

/-- Row count of a manager (line 38: count column of the manager groupby). -/
def msCount (rows : List (MSRow α)) (m : α) : ℕ :=
  rows.countP (fun r => decide (r.manager_id = m))

/-- Number of rows of a manager carrying a given label. -/
def msClassCount (rows : List (MSRow α)) (m : α) (l : InterestLevel) : ℕ :=
  rows.countP (fun r => decide (r.manager_id = m ∧ r.label = l))

/-- The manager ids appearing in the training frame (groupby keys, line 33). -/
def managers (rows : List (MSRow α)) : List α :=
  (rows.map MSRow.manager_id).dedup

/-- Line 40: the managers whose count is at least the threshold. -/
def qualifiedManagers (k : ℕ) (rows : List (MSRow α)) : List α :=
  (managers rows).filter (fun m => decide (k ≤ msCount rows m))

/-- The categorical columns of the script (line 334). -/
def categorical : List String :=
  [ "display_address", "manager_id", "building_id", "street_address"]

/-- Column name built on line 83. -/
def w_high_col (c : String) : String :=
  "w_high_" ++ c

/-- Column name built on line 88. -/
def w_med_col (c : String) : String :=
  "w_med_" ++ c

/-- The corresponding name for the low class; the script never builds it. -/
def w_low_col (c : String) : String :=
  "w_low_" ++ c

/-- Lines 98-99: the columns kept in self.mapping_. -/
def mappingColumns (c : String) : List String :=
  [w_high_col c, w_med_col c, c]

def manager_id_col : String :=
  "manager_id"

/-- A timestamp as consumed by strftime on line 163. -/
structure Timestamp where
  year : ℕ
  month : ℕ
  day : ℕ
  hour : ℕ
  minute : ℕ

/-- Two-digit zero-padded field of strftime (%m, %d, %H, %M); the fields are
below 100 for every calendar timestamp. -/
def pad2 (n : ℕ) : String :=
  String.mk [Nat.digitChar (n / 10 % 10), Nat.digitChar (n % 10)]

/-- now.strftime of the format string used on line 163: %Y-%m-%d-%H%M. -/
def strftimeFmt (t : Timestamp) : String :=
  Nat.repr t.year ++ "-" ++ pad2 t.month ++ "-" ++ pad2 t.day ++ "-" ++
    pad2 t.hour ++ pad2 t.minute

/-- The four decimal digits of the fractional part, for n < 10000. -/
def frac4 (n : ℕ) : String :=
  String.mk [Nat.digitChar (n / 1000 % 10), Nat.digitChar (n / 100 % 10),
    Nat.digitChar (n / 10 % 10), Nat.digitChar (n % 10)]

/-- The format specifier 0.4f applied to a nonnegative score (line 163):
round to four decimal places and print the integer part, a dot, and exactly
four fractional digits. -/
def format0_4f (q : ℚ) : String :=
  let n : ℕ := (round (q * 10000)).toNat
  Nat.repr (n / 10000) ++ "." ++ frac4 (n % 10000)

/-- Line 160. -/
def ouDir : String :=
  "../output/"

/-- The two file writes of create_submission (lines 156-171).  The model frame
and feature-importance arguments do not influence the file names. -/
inductive OutputFile
  | model (path : String)
  | csv (path : String)
deriving DecidableEq

/-- create_submission, lines 156-171: build scrstr from the score and the
current time, then write the model file and the submission csv. -/
def create_submission (score : ℚ) (now : Timestamp) : List OutputFile :=
  let scrstr := format0_4f score ++ "_" ++ strftimeFmt now
  let mod_file := ouDir ++ ".model_" ++ scrstr ++ ".model"
  let sub_file := ouDir ++ "submit_" ++ scrstr ++ ".csv"
  [OutputFile.model mod_file, OutputFile.csv sub_file]

noncomputable section

/-- Line 74: high_share = high / record_count. -/
def highShare (rows : List (TrainRow α)) (c : α) : ℝ :=
  (classCount rows c InterestLevel.high : ℝ) / (recordCount rows c : ℝ)

/-- Line 75: med_share = medium / record_count. -/
def medShare (rows : List (TrainRow α)) (c : α) : ℝ :=
  (classCount rows c InterestLevel.medium : ℝ) / (recordCount rows c : ℝ)

/-- Line 77: glob_high = sum of the high column over the grouped rows divided
by the sum of record_count. -/
def globHigh (rows : List (TrainRow α)) : ℝ :=
  ((((seenCats rows).map fun c => classCount rows c InterestLevel.high).sum : ℕ) : ℝ) /
    ((((seenCats rows).map fun c => recordCount rows c).sum : ℕ) : ℝ)

/-- Line 78: glob_med, as globHigh with the medium column. -/
def globMed (rows : List (TrainRow α)) : ℝ :=
  ((((seenCats rows).map fun c => classCount rows c InterestLevel.medium).sum : ℕ) : ℝ) /
    ((((seenCats rows).map fun c => recordCount rows c).sum : ℕ) : ℝ)

/-- Lines 80-81: the smoothing weight 1 / (1 + exp(threshold - x)) applied to
the record count x. -/
def lam (k n : ℝ) : ℝ :=
  1 / (1 + Real.exp (k - n))

/-- Lines 83-91: the unjittered statistic lambda * share + (1 - lambda) * glob
of a grouped row with share s, global share g and record count n. -/
def wBlend (k s g n : ℝ) : ℝ :=
  lam k n * s + (1 - lam k n) * g

/-- Lines 93-96: the jitter factor 1 + 0.01 * (u - 0.5) with u the value drawn
by np.random.uniform, which lies in [0, 1). -/
def jitterFactor (u : ℝ) : ℝ :=
  1 + 0.01 * (u - 0.5)

/-- The stored statistic of a grouped row: the blend of lines 83-91 multiplied
by the jitter factor of lines 93-96. -/
def wJit (k s g u n : ℝ) : ℝ :=
  wBlend k s g n * jitterFactor u

/-- The w_high value stored for category c, with uh giving the uniform draw of
line 94 for the grouped row of c. -/
def wHigh (rows : List (TrainRow α)) (k : ℝ) (uh : α → ℝ) (c : α) : ℝ :=
  wJit k (highShare rows c) (globHigh rows) (uh c) (recordCount rows c)

/-- The w_med value stored for category c, with um giving the uniform draw of
line 96 for the grouped row of c. -/
def wMed (rows : List (TrainRow α)) (k : ℝ) (um : α → ℝ) (c : α) : ℝ :=
  wJit k (medShare rows c) (globMed rows) (um c) (recordCount rows c)

/-- The fitted state of CategoricalTransformer: the kept columns of the
mapping (category value, w_high, w_med) and the three global attributes.
glob_low is set by _reset and never assigned by fit. -/
structure FittedCT (α : Type) where
  mapping_ : List (α × ℝ × ℝ)
  glob_high : ℝ
  glob_med : ℝ
  glob_low : ℝ

/-- CategoricalTransformer.fit (lines 66-101): one mapping row per distinct
category value, holding the jittered statistics. -/
def CategoricalTransformer.fit (k : ℝ) (rows : List (TrainRow α)) (uh um : α → ℝ) :
    FittedCT α :=
  { mapping_ := (seenCats rows).map fun c => (c, wHigh rows k uh c, wMed rows k um c)
    glob_high := globHigh rows
    glob_med := globMed rows
    glob_low := 0 }

/-- CategoricalTransformer.transform (lines 103-113) on one input value of the
categorical column: the left merge yields the mapping row of the value when one
exists, and NaN otherwise; the NaN test on lines 109-112 then substitutes the
global shares.  The stored statistics are real numbers, never NaN. -/
def CategoricalTransformer.transform (f : FittedCT α) (c : α) : ℝ × ℝ :=
  match f.mapping_.find? (fun e => decide (e.1 = c)) with
  | some e => (e.2.1, e.2.2)
  | none => (f.glob_high, f.glob_med)

/-- transform with the fitted state passed explicitly: the method reads
self.mapping_, self.glob_high and self.glob_med and assigns no attribute, so
the state component of the result is the input state. -/
def CategoricalTransformer.transformState (f : FittedCT α) (xs : List α) :
    FittedCT α × List (ℝ × ℝ) :=
  (f, xs.map (CategoricalTransformer.transform f))

/-- Lines 32-36: the class fraction of a manager, the mean of the dummy column
of the label over the rows of the manager. -/
def classFrac (rows : List (MSRow α)) (m : α) (l : InterestLevel) : ℝ :=
  (msClassCount rows m l : ℝ) / (msCount rows m : ℝ)

/-- Line 39: manager_skill = high_frac * 2 + medium_frac. -/
def manager_skill (rows : List (MSRow α)) (m : α) : ℝ :=
  classFrac rows m InterestLevel.high * 2 + classFrac rows m InterestLevel.medium

/-- Line 40: the mean of manager_skill over the managers whose count reaches
the threshold. -/
def mean_skill (k : ℕ) (rows : List (MSRow α)) : ℝ :=
  ((qualifiedManagers k rows).map (manager_skill rows)).sum /
    ((qualifiedManagers k rows).length : ℝ)

/-- The fitted state of ManagerSkill: the manager_skill column keyed by
manager_id, and mean_skill_. -/
structure FittedMS (α : Type) where
  mapping_ : List (α × ℝ)
  mean_skill_ : ℝ

/-- ManagerSkill.fit (lines 30-45): managers below the threshold have their
manager_skill overwritten with the mean (line 41). -/
def ManagerSkill.fit (k : ℕ) (rows : List (MSRow α)) : FittedMS α :=
  { mapping_ := (managers rows).map fun m =>
      (m, if k ≤ msCount rows m then manager_skill rows m else mean_skill k rows)
    mean_skill_ := mean_skill k rows }

/-- ManagerSkill.transform (lines 47-51) on one manager id: left merge against
the mapping, then fillna with mean_skill_ for managers absent from it. -/
def ManagerSkill.transform (f : FittedMS α) (m : α) : ℝ :=
  match f.mapping_.find? (fun e => decide (e.1 = m)) with
  | some e => e.2
  | none => f.mean_skill_

end

/-! ## Helper lemmas -/

lemma lam_pos (k n : ℝ) : 0 < lam k n := by
  unfold lam
  have h := Real.exp_pos (k - n)
  positivity

lemma lam_lt_one (k n : ℝ) : lam k n < 1 := by
  have h := Real.exp_pos (k - n)
  unfold lam
  rw [div_lt_one (by linarith)]
  linarith

lemma lam_lt_lam (k : ℝ) {a b : ℝ} (h : a < b) : lam k a < lam k b := by
  have hb := Real.exp_pos (k - b)
  have hab : Real.exp (k - b) < Real.exp (k - a) := Real.exp_lt_exp.mpr (by linarith)
  unfold lam
  exact one_div_lt_one_div_of_lt (by linarith) (by linarith)

lemma one_sub_lam_le (k n : ℝ) : 1 - lam k n ≤ Real.exp (k - n) := by
  have he := Real.exp_pos (k - n)
  have h1 : (0 : ℝ) < 1 + Real.exp (k - n) := by linarith
  unfold lam
  have key : 1 - 1 / (1 + Real.exp (k - n)) =
      Real.exp (k - n) / (1 + Real.exp (k - n)) := by
    field_simp
  rw [key]
  exact div_le_self he.le (by linarith)

lemma recordCount_pos (rows : List (TrainRow α)) (c : α) (hc : c ∈ seenCats rows) :
    0 < recordCount rows c := by
  rw [seenCats, List.mem_dedup, List.mem_map] at hc
  obtain ⟨r, hr, rfl⟩ := hc
  have key : ∀ l, r.interest_level = l → 0 < classCount rows r.cat l := by
    intro l hl
    unfold classCount
    exact List.countP_pos_iff.mpr ⟨r, hr, by simp [hl]⟩
  unfold recordCount
  rcases hl : r.interest_level with _ | _ | _
  · have := key _ hl; omega
  · have := key _ hl; omega
  · have := key _ hl; omega

lemma cast_div_le_one {a b : ℕ} (h : a ≤ b) : (a : ℝ) / (b : ℝ) ≤ 1 := by
  rcases Nat.eq_zero_or_pos b with hb | hb
  · have ha : a = 0 := by omega
    subst hb; subst ha; norm_num
  · rw [div_le_one (by exact_mod_cast hb)]
    exact_mod_cast h

lemma highShare_mem (rows : List (TrainRow α)) (c : α) :
    0 ≤ highShare rows c ∧ highShare rows c ≤ 1 := by
  constructor
  · unfold highShare; positivity
  · unfold highShare
    apply cast_div_le_one
    unfold recordCount
    omega

lemma medShare_mem (rows : List (TrainRow α)) (c : α) :
    0 ≤ medShare rows c ∧ medShare rows c ≤ 1 := by
  constructor
  · unfold medShare; positivity
  · unfold medShare
    apply cast_div_le_one
    unfold recordCount
    omega

lemma globHigh_mem (rows : List (TrainRow α)) :
    0 ≤ globHigh rows ∧ globHigh rows ≤ 1 := by
  constructor
  · unfold globHigh; positivity
  · unfold globHigh
    apply cast_div_le_one
    apply List.sum_le_sum
    intro c _
    unfold recordCount
    omega

lemma globMed_mem (rows : List (TrainRow α)) :
    0 ≤ globMed rows ∧ globMed rows ≤ 1 := by
  constructor
  · unfold globMed; positivity
  · unfold globMed
    apply cast_div_le_one
    apply List.sum_le_sum
    intro c _
    unfold recordCount
    omega

lemma wBlend_nonneg (k s g n : ℝ) (hs : 0 ≤ s) (hg : 0 ≤ g) : 0 ≤ wBlend k s g n := by
  have h0 := lam_pos k n
  have h1 := lam_lt_one k n
  unfold wBlend
  have a1 : 0 ≤ lam k n * s := mul_nonneg h0.le hs
  have a2 : 0 ≤ (1 - lam k n) * g := mul_nonneg (by linarith) hg
  linarith

lemma wBlend_le_one (k s g n : ℝ) (hs : s ≤ 1) (hg : g ≤ 1) : wBlend k s g n ≤ 1 := by
  have h0 := lam_pos k n
  have h1 := lam_lt_one k n
  unfold wBlend
  have a1 : lam k n * s ≤ lam k n * 1 := mul_le_mul_of_nonneg_left hs h0.le
  have a2 : (1 - lam k n) * g ≤ (1 - lam k n) * 1 := mul_le_mul_of_nonneg_left hg (by linarith)
  linarith

lemma jitterFactor_mem {u : ℝ} (h0 : 0 ≤ u) (h1 : u < 1) :
    0.995 ≤ jitterFactor u ∧ jitterFactor u < 1.005 := by
  unfold jitterFactor
  constructor <;> nlinarith

lemma jitterFactor_abs_le {u : ℝ} (h0 : 0 ≤ u) (h1 : u < 1) :
    |jitterFactor u - 1| ≤ 0.005 := by
  unfold jitterFactor
  rw [abs_le]
  constructor <;> nlinarith

lemma find?_keyed_eq_some {β : Type} (l : List α) (g : α → β) {m : α} (hm : m ∈ l) :
    (l.map fun c => (c, g c)).find? (fun e => decide (e.1 = m)) = some (m, g m) := by
  induction l with
  | nil => cases hm
  | cons a t ih =>
    by_cases hma : a = m
    · subst hma
      rw [List.map_cons, List.find?_cons_of_pos _ (by simp)]
    · have hmt : m ∈ t := by
        rcases List.mem_cons.mp hm with h | h
        · exact absurd h.symm hma
        · exact h
      rw [List.map_cons, List.find?_cons_of_neg _ (by simp [hma]), ih hmt]

lemma find?_keyed_eq_none {β : Type} (l : List α) (g : α → β) {m : α} (hm : m ∉ l) :
    (l.map fun c => (c, g c)).find? (fun e => decide (e.1 = m)) = none := by
  rw [List.find?_eq_none]
  intro e he
  rw [List.mem_map] at he
  obtain ⟨x, hx, rfl⟩ := he
  simp only [decide_eq_true_eq]
  show ¬x = m
  exact fun hxm => hm (hxm ▸ hx)

lemma ct_fit_mapping_eq (k : ℝ) (rows : List (TrainRow α)) (uh um : α → ℝ) :
    (CategoricalTransformer.fit k rows uh um).mapping_ =
      (seenCats rows).map fun c => (c, wHigh rows k uh c, wMed rows k um c) := rfl

lemma ct_transform_match_eq (f : FittedCT α) (c : α) :
    CategoricalTransformer.transform f c =
      match f.mapping_.find? (fun e => decide (e.1 = c)) with
      | some e => (e.2.1, e.2.2)
      | none => (f.glob_high, f.glob_med) := rfl

lemma ms_fit_mapping_eq (k : ℕ) (rows : List (MSRow α)) :
    (ManagerSkill.fit k rows).mapping_ = (managers rows).map fun m =>
      (m, if k ≤ msCount rows m then manager_skill rows m else mean_skill k rows) := rfl

lemma ms_transform_match_eq (f : FittedMS α) (m : α) :
    ManagerSkill.transform f m =
      match f.mapping_.find? (fun e => decide (e.1 = m)) with
      | some e => e.2
      | none => f.mean_skill_ := rfl

lemma wHigh_mem (rows : List (TrainRow α)) (k : ℝ) (uh : α → ℝ) (c : α)
    (h0 : 0 ≤ uh c) (h1 : uh c < 1) :
    0 ≤ wHigh rows k uh c ∧ wHigh rows k uh c < 1.005 := by
  obtain ⟨hs0, hs1⟩ := highShare_mem rows c
  obtain ⟨hg0, hg1⟩ := globHigh_mem rows
  obtain ⟨hj0, hj1⟩ := jitterFactor_mem h0 h1
  have hb0 := wBlend_nonneg k (highShare rows c) (globHigh rows)
    ((recordCount rows c : ℝ)) hs0 hg0
  have hb1 := wBlend_le_one k (highShare rows c) (globHigh rows)
    ((recordCount rows c : ℝ)) hs1 hg1
  unfold wHigh wJit
  constructor
  · exact mul_nonneg hb0 (by linarith)
  · have hle : wBlend k (highShare rows c) (globHigh rows) ((recordCount rows c : ℝ)) *
        jitterFactor (uh c) ≤ jitterFactor (uh c) :=
      mul_le_of_le_one_left (by linarith) hb1
    linarith

lemma wMed_mem (rows : List (TrainRow α)) (k : ℝ) (um : α → ℝ) (c : α)
    (h0 : 0 ≤ um c) (h1 : um c < 1) :
    0 ≤ wMed rows k um c ∧ wMed rows k um c < 1.005 := by
  obtain ⟨hs0, hs1⟩ := medShare_mem rows c
  obtain ⟨hg0, hg1⟩ := globMed_mem rows
  obtain ⟨hj0, hj1⟩ := jitterFactor_mem h0 h1
  have hb0 := wBlend_nonneg k (medShare rows c) (globMed rows)
    ((recordCount rows c : ℝ)) hs0 hg0
  have hb1 := wBlend_le_one k (medShare rows c) (globMed rows)
    ((recordCount rows c : ℝ)) hs1 hg1
  unfold wMed wJit
  constructor
  · exact mul_nonneg hb0 (by linarith)
  · have hle : wBlend k (medShare rows c) (globMed rows) ((recordCount rows c : ℝ)) *
        jitterFactor (um c) ≤ jitterFactor (um c) :=
      mul_le_of_le_one_left (by linarith) hb1
    linarith

/-! ## Claims -/

/-- C1: for every fitted CategoricalTransformer and every input value whose
category does not occur in the fitted mapping, transform outputs the global
class shares computed at fit time: the w_high statistic equals glob_high and
the w_med statistic equals glob_med. -/
theorem ct_unseen_fallback (k : ℝ) (rows : List (TrainRow α)) (uh um : α → ℝ) (c : α)
    (hc : c ∉ seenCats rows) :
    CategoricalTransformer.transform (CategoricalTransformer.fit k rows uh um) c =
      (globHigh rows, globMed rows) := by
  have hnone : (CategoricalTransformer.fit k rows uh um).mapping_.find?
      (fun e => decide (e.1 = c)) = none := by
    rw [ct_fit_mapping_eq]
    exact find?_keyed_eq_none _ _ hc
  rw [ct_transform_match_eq, hnone]
  rfl

theorem ct_unseen_fallback_witness :
    CategoricalTransformer.transform
        (CategoricalTransformer.fit 1 [(⟨0, InterestLevel.high⟩ : TrainRow ℕ)]
          (fun _ => 0) (fun _ => 0)) 1 =
      (globHigh [(⟨0, InterestLevel.high⟩ : TrainRow ℕ)],
        globMed [(⟨0, InterestLevel.high⟩ : TrainRow ℕ)]) :=
  ct_unseen_fallback 1 [⟨0, InterestLevel.high⟩] (fun _ => 0) (fun _ => 0) 1 (by decide)

/-- C2: the smoothing weight lambda(n) = 1 / (1 + exp(threshold - n)) computed
on lines 80-81 is, for every threshold, strictly increasing in the frequency n,
and for every n its value lies strictly between 0 and 1. -/
theorem ct_lambda_monotone_bounded (k : ℝ) :
    (∀ a b : ℝ, a < b → lam k a < lam k b) ∧ ∀ n : ℝ, 0 < lam k n ∧ lam k n < 1 :=
  ⟨fun _ _ h => lam_lt_lam k h, fun n => ⟨lam_pos k n, lam_lt_one k n⟩⟩

theorem ct_lambda_monotone_bounded_witness :
    lam 5 1 < lam 5 2 ∧ 0 < lam 5 3 ∧ lam 5 3 < 1 :=
  ⟨(ct_lambda_monotone_bounded 5).1 1 2 (by norm_num),
    ((ct_lambda_monotone_bounded 5).2 3).1, ((ct_lambda_monotone_bounded 5).2 3).2⟩

/-- C8: every grouped row of fit has record_count at least 1: a category value
is a groupby key only when some training row carries it, so the divisions on
lines 74-75 never divide by zero. -/
theorem ct_record_count_ge_one (rows : List (TrainRow α)) (c : α)
    (hc : c ∈ seenCats rows) : 1 ≤ recordCount rows c :=
  recordCount_pos rows c hc

theorem ct_record_count_ge_one_witness :
    1 ≤ recordCount [(⟨0, InterestLevel.high⟩ : TrainRow ℕ)] 0 :=
  ct_record_count_ge_one [⟨0, InterestLevel.high⟩] 0 (by decide)

/-- C3 counterexample: the claim asserts that for a category with share s,
global share g and jitter draw u, the stored statistic wJit comes within every
epsilon of s as the frequency grows.  At s = 1, g = 1/2, u = 0, threshold 0,
the jitter factor is 0.995, so the stored value stays below 0.995 at every
frequency and never comes within 1/250 of the share 1. -/
theorem ct_stored_convergence_counterexample :
    ¬ ∀ ε : ℝ, 0 < ε → ∃ N : ℝ, ∀ n : ℝ, N ≤ n → (0 : ℝ) ≤ n →
      |wJit 0 1 (1 / 2) 0 n - 1| < ε := by
  intro h
  obtain ⟨N, hN⟩ := h (1 / 250) (by norm_num)
  have hmax := hN (max N 0) (le_max_left _ _) (le_max_right _ _)
  have h0 := lam_pos 0 (max N 0)
  have h1 := lam_lt_one 0 (max N 0)
  have hblend : wJit 0 1 (1 / 2) 0 (max N 0) =
      (lam 0 (max N 0) * 1 + (1 - lam 0 (max N 0)) * (1 / 2)) *
        (1 + 0.01 * (0 - 0.5)) := rfl
  have hw : wJit 0 1 (1 / 2) 0 (max N 0) ≤ 0.995 := by
    rw [hblend]
    nlinarith
  have habs : |wJit 0 1 (1 / 2) 0 (max N 0) - 1| = 1 - wJit 0 1 (1 / 2) 0 (max N 0) := by
    rw [abs_of_nonpos (by linarith)]
    ring
  rw [habs] at hmax
  linarith

/-- C3 (amended): the unjittered blend lambda * share + (1 - lambda) * glob of
lines 83-91 approaches the raw empirical class share as the frequency grows;
the stored statistic itself only approaches it up to the multiplicative jitter
factor of lines 93-96. -/
theorem ct_blend_tendsto_share (k s g ε : ℝ) (hε : 0 < ε) :
    ∃ N : ℝ, ∀ n : ℝ, N ≤ n → k ≤ n → |wBlend k s g n - s| < ε := by
  refine ⟨max 0 (Real.exp k * |g - s| / ε), fun n hN _ => ?_⟩
  have hn0 : (0 : ℝ) ≤ n := le_trans (le_max_left _ _) hN
  have hC : (0 : ℝ) ≤ |g - s| := abs_nonneg _
  have h1 := lam_lt_one k n
  have h0 := lam_pos k n
  have hkey : wBlend k s g n - s = (1 - lam k n) * (g - s) := by
    unfold wBlend
    ring
  rw [hkey, abs_mul, abs_of_nonneg (by linarith : (0 : ℝ) ≤ 1 - lam k n)]
  have step1 : (1 - lam k n) * |g - s| ≤ Real.exp (k - n) * |g - s| :=
    mul_le_mul_of_nonneg_right (one_sub_lam_le k n) hC
  have hpos : (0 : ℝ) < n + 1 := by linarith
  have hexpn : n + 1 ≤ Real.exp n := by linarith [Real.add_one_le_exp n]
  have step2 : Real.exp (k - n) * |g - s| ≤ Real.exp k * |g - s| / (n + 1) := by
    rw [Real.exp_sub, div_mul_eq_mul_div, div_le_div_iff₀ (Real.exp_pos n) hpos]
    have hnn : 0 ≤ Real.exp k * |g - s| := mul_nonneg (Real.exp_pos k).le hC
    nlinarith [mul_le_mul_of_nonneg_left hexpn hnn]
  have step3 : Real.exp k * |g - s| / (n + 1) < ε := by
    rw [div_lt_iff₀ hpos]
    have hN2 : Real.exp k * |g - s| / ε ≤ n := le_trans (le_max_right _ _) hN
    have := (div_le_iff₀ hε).mp hN2
    nlinarith
  linarith

theorem ct_blend_tendsto_share_witness :
    ∃ N : ℝ, ∀ n : ℝ, N ≤ n → (0 : ℝ) ≤ n → |wBlend 0 1 (1 / 2) n - 1| < 1 :=
  ct_blend_tendsto_share 0 1 (1 / 2) 1 (by norm_num)

/-- C4: for every seen category, fit stores the statistic obtained by blending
the per-category class share with the global class share using the logistic
weight and then multiplying by the jitter factor 1 + 0.01 * (u - 0.5); with u
drawn from [0, 1) the multiplicative perturbation is at most 0.5 percent. -/
theorem ct_seen_blend_jitter (k : ℝ) (rows : List (TrainRow α)) (uh um : α → ℝ) (c : α)
    (hc : c ∈ seenCats rows) (h1 : 0 ≤ uh c) (h2 : uh c < 1)
    (h3 : 0 ≤ um c) (h4 : um c < 1) :
    (CategoricalTransformer.fit k rows uh um).mapping_.find? (fun e => decide (e.1 = c)) =
      some (c,
        wBlend k (highShare rows c) (globHigh rows) (recordCount rows c) * jitterFactor (uh c),
        wBlend k (medShare rows c) (globMed rows) (recordCount rows c) * jitterFactor (um c)) ∧
    |jitterFactor (uh c) - 1| ≤ 0.005 ∧ |jitterFactor (um c) - 1| ≤ 0.005 := by
  refine ⟨?_, jitterFactor_abs_le h1 h2, jitterFactor_abs_le h3 h4⟩
  rw [ct_fit_mapping_eq]
  exact find?_keyed_eq_some (seenCats rows) (fun c => (wHigh rows k uh c, wMed rows k um c)) hc

theorem ct_seen_blend_jitter_witness :
    (CategoricalTransformer.fit 1 [(⟨0, InterestLevel.high⟩ : TrainRow ℕ)]
        (fun _ => 0) (fun _ => 0)).mapping_.find? (fun e => decide (e.1 = 0)) =
      some (0,
        wBlend 1 (highShare [(⟨0, InterestLevel.high⟩ : TrainRow ℕ)] 0)
          (globHigh [(⟨0, InterestLevel.high⟩ : TrainRow ℕ)])
          (recordCount [(⟨0, InterestLevel.high⟩ : TrainRow ℕ)] 0) * jitterFactor 0,
        wBlend 1 (medShare [(⟨0, InterestLevel.high⟩ : TrainRow ℕ)] 0)
          (globMed [(⟨0, InterestLevel.high⟩ : TrainRow ℕ)])
          (recordCount [(⟨0, InterestLevel.high⟩ : TrainRow ℕ)] 0) * jitterFactor 0) ∧
    |jitterFactor 0 - 1| ≤ 0.005 ∧ |jitterFactor 0 - 1| ≤ 0.005 := by
  simpa using ct_seen_blend_jitter 1 [⟨0, InterestLevel.high⟩]
    (fun _ => 0) (fun _ => 0) 0 (by decide) (by norm_num) (by norm_num)
    (by norm_num) (by norm_num)

/-- C5 counterexample: the mapping kept on lines 98-99 holds no statistic for
the low class: for the manager_id column there is no w_low column among the
kept columns. -/
theorem ct_no_low_statistic_counterexample :
    w_low_col manager_id_col ∉ mappingColumns manager_id_col := by
  decide

/-- C5 (amended): the fitted mapping contains smoothed class-likelihood
statistics for the high and medium classes only; no statistic for the low
class is computed or stored. -/
theorem ct_mapping_high_med_only :
    ∀ col ∈ categorical, w_high_col col ∈ mappingColumns col ∧
      w_med_col col ∈ mappingColumns col ∧ w_low_col col ∉ mappingColumns col := by
  decide

theorem ct_mapping_high_med_only_witness :
    w_high_col manager_id_col ∈ mappingColumns manager_id_col ∧
      w_med_col manager_id_col ∈ mappingColumns manager_id_col ∧
      w_low_col manager_id_col ∉ mappingColumns manager_id_col :=
  ct_mapping_high_med_only manager_id_col (by decide)

/-- C6: transform does not modify the fitted state: with the state passed
explicitly, the state returned by a transform call equals the state produced
by fit (field by field, including glob_low), and transforming the same input
again with the returned state yields the same result. -/
theorem ct_transform_frame (k : ℝ) (rows : List (TrainRow α)) (uh um : α → ℝ)
    (xs : List α) :
    (CategoricalTransformer.transformState (CategoricalTransformer.fit k rows uh um) xs).1.mapping_
        = (CategoricalTransformer.fit k rows uh um).mapping_ ∧
    (CategoricalTransformer.transformState (CategoricalTransformer.fit k rows uh um) xs).1.glob_high
        = (CategoricalTransformer.fit k rows uh um).glob_high ∧
    (CategoricalTransformer.transformState (CategoricalTransformer.fit k rows uh um) xs).1.glob_med
        = (CategoricalTransformer.fit k rows uh um).glob_med ∧
    (CategoricalTransformer.transformState (CategoricalTransformer.fit k rows uh um) xs).1.glob_low
        = (CategoricalTransformer.fit k rows uh um).glob_low ∧
    CategoricalTransformer.transformState
        ((CategoricalTransformer.transformState (CategoricalTransformer.fit k rows uh um) xs).1) xs
      = CategoricalTransformer.transformState (CategoricalTransformer.fit k rows uh um) xs :=
  ⟨rfl, rfl, rfl, rfl, rfl⟩

/-- C7: create_submission writes exactly two files, a serialized model file and
a csv submission file, and both names embed the score formatted with four
fractional digits followed by the %Y-%m-%d-%H%M timestamp. -/
theorem create_submission_files (score : ℚ) (now : Timestamp) :
    (create_submission score now).length = 2 ∧
    create_submission score now =
      [OutputFile.model (ouDir ++ ".model_" ++
          (format0_4f score ++ "_" ++ strftimeFmt now) ++ ".model"),
        OutputFile.csv (ouDir ++ "submit_" ++
          (format0_4f score ++ "_" ++ strftimeFmt now) ++ ".csv")] ∧
    format0_4f score =
      Nat.repr ((round (score * 10000)).toNat / 10000) ++ "." ++
        frac4 ((round (score * 10000)).toNat % 10000) ∧
    (frac4 ((round (score * 10000)).toNat % 10000)).length = 4 :=
  ⟨rfl, rfl, rfl, rfl⟩

/-- C9: after ManagerSkill.fit, a manager with fewer training records than the
threshold is mapped to mean_skill (the mean of manager_skill over the managers
reaching the threshold), and transform assigns the same mean_skill to a manager
unseen at fit time, so rare and unseen managers receive identical output. -/
theorem ms_rare_unseen_same_output (k : ℕ) (rows : List (MSRow α)) (m n : α)
    (hm : m ∈ managers rows) (hrare : msCount rows m < k) (hn : n ∉ managers rows) :
    ManagerSkill.transform (ManagerSkill.fit k rows) m = mean_skill k rows ∧
    ManagerSkill.transform (ManagerSkill.fit k rows) n = mean_skill k rows := by
  constructor
  · have hsome : (ManagerSkill.fit k rows).mapping_.find? (fun e => decide (e.1 = m)) =
        some (m, if k ≤ msCount rows m then manager_skill rows m else mean_skill k rows) := by
      rw [ms_fit_mapping_eq]
      exact find?_keyed_eq_some (managers rows)
        (fun x => if k ≤ msCount rows x then manager_skill rows x else mean_skill k rows) hm
    rw [ms_transform_match_eq, hsome]
    simp only []
    rw [if_neg (by omega)]
  · have hnone : (ManagerSkill.fit k rows).mapping_.find? (fun e => decide (e.1 = n)) =
        none := by
      rw [ms_fit_mapping_eq]
      exact find?_keyed_eq_none _ _ hn
    rw [ms_transform_match_eq, hnone]
    rfl

theorem ms_rare_unseen_same_output_witness :
    ManagerSkill.transform (ManagerSkill.fit 5 [(⟨0, InterestLevel.high⟩ : MSRow ℕ)]) 0
        = mean_skill 5 [(⟨0, InterestLevel.high⟩ : MSRow ℕ)] ∧
    ManagerSkill.transform (ManagerSkill.fit 5 [(⟨0, InterestLevel.high⟩ : MSRow ℕ)]) 1
        = mean_skill 5 [(⟨0, InterestLevel.high⟩ : MSRow ℕ)] :=
  ms_rare_unseen_same_output 5 [⟨0, InterestLevel.high⟩] 0 1
    (by decide) (by decide) (by decide)

/-- C10: every statistic stored in the fitted mapping is the unjittered blend
multiplied by a factor in [0.995, 1.005), and every value produced by
transform, stored statistic or global-share fallback, lies in [0, 1.005). -/
theorem ct_output_bounds (k : ℝ) (rows : List (TrainRow α)) (uh um : α → ℝ)
    (hu : ∀ x, 0 ≤ uh x ∧ uh x < 1) (hv : ∀ x, 0 ≤ um x ∧ um x < 1) :
    (∀ e ∈ (CategoricalTransformer.fit k rows uh um).mapping_,
      ∃ a b : ℝ, 0.995 ≤ a ∧ a < 1.005 ∧ 0.995 ≤ b ∧ b < 1.005 ∧
        e.2.1 = wBlend k (highShare rows e.1) (globHigh rows) (recordCount rows e.1) * a ∧
        e.2.2 = wBlend k (medShare rows e.1) (globMed rows) (recordCount rows e.1) * b) ∧
    ∀ x : α,
      0 ≤ (CategoricalTransformer.transform (CategoricalTransformer.fit k rows uh um) x).1 ∧
      (CategoricalTransformer.transform (CategoricalTransformer.fit k rows uh um) x).1 < 1.005 ∧
      0 ≤ (CategoricalTransformer.transform (CategoricalTransformer.fit k rows uh um) x).2 ∧
      (CategoricalTransformer.transform (CategoricalTransformer.fit k rows uh um) x).2 < 1.005 := by
  constructor
  · intro e he
    rw [ct_fit_mapping_eq] at he
    rw [List.mem_map] at he
    obtain ⟨c, _, rfl⟩ := he
    exact ⟨jitterFactor (uh c), jitterFactor (um c),
      (jitterFactor_mem (hu c).1 (hu c).2).1, (jitterFactor_mem (hu c).1 (hu c).2).2,
      (jitterFactor_mem (hv c).1 (hv c).2).1, (jitterFactor_mem (hv c).1 (hv c).2).2,
      rfl, rfl⟩
  · intro x
    rcases hfind : (CategoricalTransformer.fit k rows uh um).mapping_.find?
        (fun e => decide (e.1 = x)) with _ | e
    · rw [ct_transform_match_eq, hfind]
      have hg := globHigh_mem rows
      have hm := globMed_mem rows
      show 0 ≤ globHigh rows ∧ globHigh rows < 1.005 ∧
        0 ≤ globMed rows ∧ globMed rows < 1.005
      exact ⟨hg.1, by linarith [hg.2], hm.1, by linarith [hm.2]⟩
    · have hmem := List.mem_of_find?_eq_some hfind
      rw [ct_fit_mapping_eq] at hmem
      rw [List.mem_map] at hmem
      obtain ⟨c, _, hce⟩ := hmem
      rw [ct_transform_match_eq, hfind, ← hce]
      have h1 := wHigh_mem rows k uh c (hu c).1 (hu c).2
      have h2 := wMed_mem rows k um c (hv c).1 (hv c).2
      exact ⟨h1.1, h1.2, h2.1, h2.2⟩

theorem ct_output_bounds_witness :
    0 ≤ (CategoricalTransformer.transform
        (CategoricalTransformer.fit 1 [(⟨0, InterestLevel.high⟩ : TrainRow ℕ)]
          (fun _ => 0) (fun _ => 0)) 3).1 ∧
    (CategoricalTransformer.transform
        (CategoricalTransformer.fit 1 [(⟨0, InterestLevel.high⟩ : TrainRow ℕ)]
          (fun _ => 0) (fun _ => 0)) 3).1 < 1.005 ∧
    0 ≤ (CategoricalTransformer.transform
        (CategoricalTransformer.fit 1 [(⟨0, InterestLevel.high⟩ : TrainRow ℕ)]
          (fun _ => 0) (fun _ => 0)) 3).2 ∧
    (CategoricalTransformer.transform
        (CategoricalTransformer.fit 1 [(⟨0, InterestLevel.high⟩ : TrainRow ℕ)]
          (fun _ => 0) (fun _ => 0)) 3).2 < 1.005 := by
  have h := ct_output_bounds 1 [(⟨0, InterestLevel.high⟩ : TrainRow ℕ)]
    (fun _ => 0) (fun _ => 0) (fun _ => by norm_num) (fun _ => by norm_num)
  exact h.2 3

end SklearnPipeline
